import Mathlib

/-!
Verification of the mac-reminders-agent command-line bridge.

The development shallowly embeds the dispatch, parsing, date-normalization
and locale-rendering logic of `src/cli.js`, `src/reminders/apple-bridge.js`
and `src/reminders/eventkit-bridge.swift`.

Machine conventions used throughout:
* instants are modelled as `Int` seconds since the Unix epoch;
* the local time zone of the process is modelled as a fixed offset `tz` in
  minutes east of UTC (the fixed-offset model makes calendar-day
  arithmetic exact);
* JavaScript `Date` semantics (ECMA-262: parse to an epoch instant, local
  getters read the instant through the local zone) are embedded through
  proleptic-Gregorian civil-calendar arithmetic.
-/

namespace MacReminders

/-! ## Civil calendar arithmetic

Days-from-civil and civil-from-days on the proleptic Gregorian calendar
(the standard era-based algorithms), used to embed JavaScript `Date`
getters and Swift `Calendar.current.date(from:)` in a fixed-offset zone.
All divisions are floor divisions on nonnegative intermediate values. -/

/-- Day number (days since 1970-01-01) of a civil date `y-m-d`. -/
def daysFromCivil (y m d : Int) : Int :=
  let y' := y - (if m ≤ 2 then 1 else 0)
  let era := y'.fdiv 400
  let yoe := y' - era * 400
  let mp := m + (if m > 2 then -3 else 9)
  let doy := (153 * mp + 2).fdiv 5 + d - 1
  let doe := yoe * 365 + yoe.fdiv 4 - yoe.fdiv 100 + doy
  era * 146097 + doe - 719468

/-- Civil date `(y, m, d)` of a day number (days since 1970-01-01). -/
def civilFromDays (z : Int) : Int × Int × Int :=
  let z' := z + 719468
  let era := z'.fdiv 146097
  let doe := z' - era * 146097
  let yoe := (doe - doe.fdiv 1460 + doe.fdiv 36524 - doe.fdiv 146096).fdiv 365
  let y := yoe + era * 400
  let doy := doe - (365 * yoe + yoe.fdiv 4 - yoe.fdiv 100)
  let mp := (5 * doy + 2).fdiv 153
  let d := doy - (153 * mp + 2).fdiv 5 + 1
  let m := mp + (if mp < 10 then 3 else -9)
  (y + (if m ≤ 2 then 1 else 0), m, d)

/-- A wall-clock date-time: calendar components without a zone. -/
structure CivilTime where
  year : Int
  month : Int
  day : Int
  hour : Int
  minute : Int
  second : Int
deriving DecidableEq, Repr

/-- Wall-clock reading of epoch instant `t` in the fixed zone `tz`
(minutes east of UTC). -/
def civilOfEpoch (tz t : Int) : CivilTime :=
  let l := t + 60 * tz
  let days := l.fdiv 86400
  let rem := l.fmod 86400
  let ymd := civilFromDays days
  { year := ymd.1, month := ymd.2.1, day := ymd.2.2
    hour := rem.fdiv 3600
    minute := (rem.fmod 3600).fdiv 60
    second := rem.fmod 60 }

/-- Epoch instant of the wall-clock time `c` read in the fixed zone `tz`. -/
def epochOfCivil (tz : Int) (c : CivilTime) : Int :=
  86400 * daysFromCivil c.year c.month c.day
    + 3600 * c.hour + 60 * c.minute + c.second - 60 * tz

/-! ## ISO-8601 input strings

Due strings in this repository follow the profile
`YYYY-MM-DDTHH:MM:SS±hh:mm` (an explicit UTC offset).  A due string on the
wire is either such a string, carried structurally, or some other text
that neither `new Date` nor the Swift regular expression accepts. -/

/-- An ISO-8601 date-time string with an explicit UTC offset, carried
structurally: the six wall-clock digit groups as written, plus the offset
in minutes. -/
structure ISODateTime where
  year : Int
  month : Int
  day : Int
  hour : Int
  minute : Int
  second : Int
  offsetMin : Int
deriving DecidableEq, Repr

/-- The wall-clock digit groups of an ISO string, as written. -/
def ISODateTime.components (v : ISODateTime) : CivilTime :=
  ⟨v.year, v.month, v.day, v.hour, v.minute, v.second⟩

/-- The absolute instant denoted by an ISO string: its wall clock read at
its own offset. -/
def ISODateTime.epoch (v : ISODateTime) : Int :=
  epochOfCivil v.offsetMin v.components

/-- A nonempty date string handed to the bridges: either it matches the
ISO profile (carried structurally) or it is other text that fails both
the JavaScript `Date` parse and the Swift regular expression. -/
inductive DateStr where
  | iso (v : ISODateTime)
  | bad (s : String)
deriving DecidableEq, Repr

/-- Embedding of `new Date(s).getTime()` on the input profile of this
repository: an ISO string denotes its instant, anything else is `NaN`
(modelled as `none`). -/
def jsDateEpoch : DateStr → Option Int
  | .iso v => some v.epoch
  | .bad _ => none

/-- Embedding of `Date.prototype.getDay` (0 = Sunday) of instant `t` in
zone `tz`; 1970-01-01 was a Thursday (= 4). -/
def jsGetDay (tz t : Int) : Int :=
  ((t + 60 * tz).fdiv 86400 + 4).fmod 7

/-! ## Date normalization in the two transports -/

/-- The calendar components `apple-bridge.js` sends to AppleScript
(year, month 1-12, day, hour, minute). -/
structure ParsedDue where
  year : Int
  month : Int
  day : Int
  hour : Int
  minute : Int
deriving DecidableEq, Repr

/-- Embedding of `parseISO` in `src/reminders/apple-bridge.js`:
`new Date(dueISO)` followed by the local getters
(`getFullYear`, `getMonth() + 1`, `getDate`, `getHours`, `getMinutes`).
`dueISO = none` models the absent/empty string, `NaN` parses yield
`none`. -/
def parseISO (tz : Int) (dueISO : Option DateStr) : Option ParsedDue :=
  match dueISO with
  | none => none
  | some ds =>
    match jsDateEpoch ds with
    | none => none
    | some t =>
      let c := civilOfEpoch tz t
      some { year := c.year, month := (c.month - 1) + 1, day := c.day
             hour := c.hour, minute := c.minute }

/-- Embedding of `parseISO8601` in
`src/reminders/eventkit-bridge.swift`: the regular expression
`^(\d4)-(\d2)-(\d2)T(\d2):(\d2):(\d2)` captures the literal digit
groups of the string; the trailing UTC offset is never read. -/
def parseISO8601 : DateStr → Option CivilTime
  | .iso v => some v.components
  | .bad _ => none

/-- Modelled from the spec (§4.2): the stored components demanded by the
spec — the wall-clock reading of the denoted absolute instant converted
to the local zone `tz` of the process. -/
def specLocalWallClock (tz : Int) (v : ISODateTime) : ParsedDue :=
  let c := civilOfEpoch tz v.epoch
  { year := c.year, month := c.month, day := c.day
    hour := c.hour, minute := c.minute }

/-! ## Transport dispatch (`add` in apple-bridge.js) -/

/-- The two transports behind the adapter. -/
inductive Transport where
  | swiftEventKit
  | appleScript
deriving DecidableEq, Repr

/-- JavaScript truthiness of the `repeat` parameter of `add` (the CLI
passes either `null` or a nonempty string). -/
def jsTruthyStr : Option String → Bool
  | none => false
  | some s => s ≠ ""

/-- Embedding of the transport choice in `add` of
`src/reminders/apple-bridge.js`: `if (repeat) { runSwiftHelper … } else
{ runAppleScript … }`. -/
def addTransport (rep : Option String) : Transport :=
  if jsTruthyStr rep then .swiftEventKit else .appleScript

/-! ## List filtering — AppleScript backend

Embedding of `list` in `src/reminders/apple-bridge.js`: the generated
AppleScript walks the reminders of the default list, keeps incomplete
ones, and compares the due date of each reminder against a `[startDate,
endDate]` window whose bounds depend on the scope string.  Reminders and
instants are compared as absolute date values. -/

/-- A reminder as seen by the AppleScript transport: a name, an optional
due instant, and a completion flag. -/
structure ASReminder where
  title : String
  due : Option Int
  completed : Bool
deriving DecidableEq, Repr

/-- Window `[startDate, endDate]` computed by the AppleScript for a
scope string: `today` is the local calendar day (AppleScript
`nowDate - (time of nowDate)` to `+ 1 * days`), `week` is
`[now - 1 day, now + 7 days]`, and any other scope leaves both bounds at
`nowDate`. -/
def appleScriptWindow (scope : String) (tz now : Int) : Int × Int :=
  if scope = "today" then
    let startOfDay := now - (now + 60 * tz).fmod 86400
    (startOfDay, startOfDay + 86400)
  else if scope = "week" then
    (now - 86400, now + 7 * 86400)
  else
    (now, now)

/-- Embedding of the AppleScript filter loop of `list`: incomplete
reminders only; scope `all` keeps every one, any other scope keeps those
with a due date inside the window (inclusive on both ends). -/
def appleScriptList (scope : String) (tz now : Int)
    (rs : List ASReminder) : List ASReminder :=
  let w := appleScriptWindow scope tz now
  rs.filter fun r =>
    !r.completed &&
      (scope = "all" ||
        match r.due with
        | some d => w.1 ≤ d && d ≤ w.2
        | none => false)

/-! ## List filtering — Swift EventKit backend

Embedding of `listReminders` in `src/reminders/eventkit-bridge.swift`:
`predicateForIncompleteReminders` fetches the incomplete reminders, then
the scope switch filters on `Calendar.current.date(from:
dueDateComponents)`.  `cal.date(byAdding: .day, …)` is exact in the
fixed-offset zone model. -/

/-- The recurrence frequencies of EventKit used by the bridge. -/
inductive Frequency where
  | daily
  | weekly
  | monthly
  | yearly
deriving DecidableEq, Repr

/-- An EventKit recurrence rule as built by the bridge. -/
structure RecRule where
  frequency : Frequency
  interval : Int
  recEnd : Option Int
deriving DecidableEq, Repr

/-- An EventKit reminder as manipulated by the Swift bridge. -/
structure EKRem where
  id : String
  title : Option String
  notes : Option String
  due : Option CivilTime
  alarms : List Int
  rules : Option RecRule
  completed : Bool
  completionDate : Option Int
deriving DecidableEq, Repr

/-- Embedding of Swift `Calendar.current.date(from: components)` in the
fixed-offset zone `tz`. -/
def swiftDateFrom (tz : Int) (c : CivilTime) : Int :=
  epochOfCivil tz c

/-- Embedding of `listReminders`: fetch incomplete reminders, then
filter by scope; `today` is the half-open local day, `week` is the
closed `[now - 1 day, now + 7 days]`, `all` and every other scope keep
the whole fetch. -/
def listReminders (scope : String) (tz now : Int)
    (rs : List EKRem) : List EKRem :=
  let fetched := rs.filter fun r => !r.completed
  if scope = "today" then
    let startOfDay := now - (now + 60 * tz).fmod 86400
    fetched.filter fun r =>
      match r.due with
      | some c => startOfDay ≤ swiftDateFrom tz c && swiftDateFrom tz c < startOfDay + 86400
      | none => false
  else if scope = "week" then
    fetched.filter fun r =>
      match r.due with
      | some c => now - 86400 ≤ swiftDateFrom tz c && swiftDateFrom tz c ≤ now + 7 * 86400
      | none => false
  else
    fetched

/-! ## Subprocess boundaries (cli.js → apple-bridge.js → Swift)

Both boundaries run a subprocess and inspect `(err, stdout, stderr)`.
The stdout of a run is modelled as either a parsed JSON object (carrying
its `ok`/`error` fields) or raw non-JSON text. -/

/-- Stdout of a bridge subprocess: a single JSON object or raw text that
`JSON.parse` rejects. -/
inductive BridgeOut where
  | json (ok : Bool) (error : Option String)
  | notJson (raw : String)
deriving DecidableEq, Repr

/-- What a boundary hands back on success: the parsed object, or the
`\x7bok: true, raw: text\x7d` wrapper cli.js builds around non-JSON
output. -/
inductive BridgeResult where
  | parsed (ok : Bool) (error : Option String)
  | rawWrapped (raw : String)
deriving DecidableEq, Repr

/-- Embedding of `runReminderBridge` in `src/cli.js`: a subprocess error
rejects with `stderr || err.message`; otherwise stdout is parsed as
JSON, and text that fails to parse is wrapped as
`\x7bok: true, raw: text\x7d` and resolved. -/
def runReminderBridge (err : Option String) (stderr : String)
    (out : BridgeOut) : Except String BridgeResult :=
  match err with
  | some m => .error (if stderr ≠ "" then stderr else m)
  | none =>
    match out with
    | .json ok e => .ok (.parsed ok e)
    | .notJson raw => .ok (.rawWrapped raw)

/-- Embedding of `runSwiftHelper` in
`src/reminders/apple-bridge.js`: missing Swift rejects; a subprocess
error rejects with `stderr || err.message`; non-JSON stdout rejects with
the raw detail; a JSON object with `ok === false` rejects with its
`error` field; anything else resolves. -/
def runSwiftHelper (hasSwift : Bool) (err : Option String)
    (stderr : String) (out : BridgeOut) : Except String BridgeResult :=
  if !hasSwift then
    .error "Swift not found. Native recurrence requires Swift.\nInstall Xcode Command Line Tools: xcode-select --install"
  else
    match err with
    | some m => .error (if stderr ≠ "" then stderr else m)
    | none =>
      match out with
      | .json ok e =>
        if ok = false then .error (e.getD "Swift helper failed")
        else .ok (.parsed ok e)
      | .notJson raw => .error ("Swift returned invalid JSON: " ++ raw.take 200)

/-! ## Locale table and rendering (cli.js) -/

/-- The `repeat` sub-record of a locale bundle: labels keyed by
frequency, plus optional day and month name arrays. -/
structure RepeatBundle where
  labels : Option (List (String × String))
  days : Option (List String)
  months : Option (List String)
deriving DecidableEq, Repr

/-- The bundle of one language from `locales.json`: response templates and
the repeat sub-record (either may be missing). -/
structure LocaleBundle where
  responses : Option (List (String × String))
  rep : Option RepeatBundle
deriving DecidableEq, Repr

/-- The empty bundle `\x7b\x7d` that `getLocale` falls back to when even
`en` is unavailable. -/
def emptyBundle : LocaleBundle := ⟨none, none⟩

/-- JavaScript object-key lookup on an embedded table. -/
def lookupKey {α : Type} (table : List (String × α)) (k : String) : Option α :=
  (table.find? fun p => p.1 = k).map (·.2)

/-- Embedding of `getLocale` in `src/cli.js`:
`locales[code] || locales["en"] || \x7b\x7d`. -/
def getLocale (table : List (String × LocaleBundle)) (code : String) : LocaleBundle :=
  match lookupKey table code with
  | some b => b
  | none =>
    match lookupKey table "en" with
    | some b => b
    | none => emptyBundle

/-- Embedding of `formatResponse` in `src/cli.js`: substitute every
occurrence of `\x7bkey\x7d` for each supplied variable (absent values
become the empty string upstream). -/
def formatResponse (template : String) (vars : List (String × String)) : String :=
  vars.foldl (fun acc p => acc.replace ("\x7b" ++ p.1 ++ "\x7d") p.2) template

/-! ## Flag parsing and command dispatch (cli.js) -/

/-- A value in the parsed argument object: a bare `--flag` stores the
JavaScript boolean `true`, a following token stores a string. -/
inductive ArgVal where
  | flag
  | str (s : String)
deriving DecidableEq, Repr

/-- Test for `token.startsWith("--")`, written on the character list so
that it evaluates by kernel reduction. -/
def isDashDash (t : String) : Bool :=
  match t.data with
  | c1 :: c2 :: _ => c1 = '-' && c2 = '-'
  | _ => false

/-- JavaScript `token.slice(2)`, written on the character list. -/
def sliceTwo (t : String) : String :=
  ⟨t.data.drop 2⟩

/-- Worker for `parseArgs`: walks the tokens carrying the pending key;
`--k` binds `k` to `true` and any next plain token rebinds it to that
string; plain tokens with no pending key are positionals. -/
def parseArgsGo : List String → Option String → List (String × ArgVal) × List String
  | [], _ => ([], [])
  | t :: rest, curr =>
    if isDashDash t then
      let k := sliceTwo t
      let r := parseArgsGo rest (some k)
      ((k, ArgVal.flag) :: r.1, r.2)
    else
      match curr with
      | some k =>
        let r := parseArgsGo rest none
        ((k, ArgVal.str t) :: r.1, r.2)
      | none =>
        let r := parseArgsGo rest none
        (r.1, t :: r.2)

/-- Embedding of `parseArgs` in `src/cli.js`: the binding list (in
assignment order; a later assignment to the same key wins) and the
positional list `_`. -/
def parseArgs (argv : List String) : List (String × ArgVal) × List String :=
  parseArgsGo argv none

/-- Current value of key `k` in the parsed argument object: the last
assignment wins, as in the JavaScript object. -/
def argVal (m : List (String × ArgVal)) (k : String) : Option ArgVal :=
  (m.reverse.find? fun p => p.1 = k).map (·.2)

/-- JavaScript truthiness of a parsed argument value (`undefined` and
the empty string are falsy; `true` and nonempty strings are truthy). -/
def jsTruthyArg : Option ArgVal → Bool
  | none => false
  | some .flag => true
  | some (.str s) => s ≠ ""

/-- String conversion of an argument value as it reaches a subprocess
argument array. -/
def ArgVal.asString : ArgVal → String
  | .flag => "true"
  | .str s => s

/-- Observable action chosen by `main` in `src/cli.js`: print help, call
the bridge for `list`, fail validation for `add` without a title, call
the bridge for `add`, or reject an unknown command.  Exactly the
`listCall`/`addCall` actions spawn the bridge subprocess;
`addValidationError` and `unknownCmd` print to stderr and exit 1 with no
subprocess. -/
inductive MainAction where
  | helpOut
  | listCall (scope : String)
  | addValidationError
  | addCall (m : List (String × ArgVal))
  | unknownCmd (c : String)
deriving DecidableEq, Repr

/-- Embedding of the control flow of `main` in `src/cli.js` up to the
single bridge invocation. -/
def cliMain (argv : List String) : MainAction :=
  let pa := parseArgs argv
  let m := pa.1
  match pa.2.head? with
  | none => .helpOut
  | some c =>
    if c = "help" || c = "--help" || c = "-h" then .helpOut
    else if c = "list" then
      let scope :=
        match argVal m "scope" with
        | some v => if jsTruthyArg (some v) then v.asString else "week"
        | none => "week"
      .listCall scope
    else if c = "add" then
      if jsTruthyArg (argVal m "title") then .addCall m
      else .addValidationError
    else .unknownCmd c

/-! ## Title decoration on add (cli.js) -/

/-- JavaScript `String(n).padStart(2, "0")`. -/
def pad2 (n : Int) : String :=
  let s := toString n
  if s.length < 2 then "0" ++ s else s

/-- First-occurrence-only string replacement, the semantics of
JavaScript `String.prototype.replace` with a plain-string pattern. -/
def replaceFirst (s pat repl : String) : String :=
  match s.splitOn pat with
  | [] => s
  | [_] => s
  | x :: rest => x ++ repl ++ String.intercalate pat rest

/-- JavaScript array indexing producing the string an absent element
turns into once it is spliced into a template. -/
def jsIndex (xs : List String) (i : Nat) : String :=
  (xs.get? i).getD "undefined"

/-- Embedding of `formatDueForTitle` in `src/cli.js`: an unparseable or
absent due string yields the empty string; otherwise the local calendar
reading is formatted `YYYY.MM.DD HH:MM` for locale `ko` and
`YYYY-MM-DD HH:MM` for every other locale. -/
def formatDueForTitle (tz : Int) (dueISO : Option DateStr) (locale : String) : String :=
  match dueISO with
  | none => ""
  | some ds =>
    match jsDateEpoch ds with
    | none => ""
    | some t =>
      let c := civilOfEpoch tz t
      let yyyy := toString c.year
      let mm := pad2 c.month
      let dd := pad2 c.day
      let hh := pad2 c.hour
      let mi := pad2 c.minute
      if locale = "ko" then
        yyyy ++ "." ++ mm ++ "." ++ dd ++ " " ++ hh ++ ":" ++ mi
      else
        yyyy ++ "-" ++ mm ++ "-" ++ dd ++ " " ++ hh ++ ":" ++ mi

/-- The day/date/month substitution values taken from `new Date(due)` in
the repeat-label branch of `main`: on a valid date they come from the
local getters; on an invalid date `getDay()`/`getDate()`/`getMonth()`
are `NaN`, array indexing yields `undefined`, and splicing into the
label produces the literal strings "undefined" and "NaN". -/
def repeatSubstVals (tz : Int) (rb : RepeatBundle) (ds : DateStr) :
    String × String × String :=
  match jsDateEpoch ds with
  | some t =>
    let dayIdx := (jsGetDay tz t).toNat
    let c := civilOfEpoch tz t
    ( match rb.days with
      | some names => jsIndex names dayIdx
      | none => ""
    , toString c.day
    , match rb.months with
      | some names => jsIndex names (c.month - 1).toNat
      | none => toString ((c.month - 1) + 1) )
  | none =>
    ( match rb.days with
      | some _ => "undefined"
      | none => ""
    , "NaN"
    , match rb.months with
      | some _ => "undefined"
      | none => "NaN" )

/-- The `\x7bday\x7d`/`\x7bdate\x7d`/`\x7bmonth\x7d` substitution the
repeat branch performs on a label (first occurrence each, the semantics
of the three chained `.replace` calls). -/
def substitutedLabel (tz : Int) (rb : RepeatBundle) (lbl : String)
    (ds : DateStr) : String :=
  let v := repeatSubstVals tz rb ds
  replaceFirst
    (replaceFirst (replaceFirst lbl "\x7bday\x7d" v.1) "\x7bdate\x7d" v.2.1)
    "\x7bmonth\x7d" v.2.2

/-- The guard chain of the repeat branch
(`repeat && loc.repeat && loc.repeat.labels` then the truthiness of
`loc.repeat.labels[repeat]`) collapsed into one optional label. -/
def repeatLabelOf (loc : LocaleBundle) (rep : String) : Option String :=
  if rep = "" then none
  else
    match loc.rep with
    | none => none
    | some rb =>
      match rb.labels with
      | none => none
      | some labels =>
        match lookupKey labels rep with
        | none => none
        | some lbl => if lbl = "" then none else some lbl

/-- Embedding of the repeat-label decoration step of the `add` branch
of `main` (cli.js lines 136-159): when the guards pass, the label —
substituted from the due date when a due string is present — is appended
in parentheses. -/
def decorateRepeat (tz : Int) (loc : LocaleBundle) (title : String)
    (due : Option DateStr) (rep : String) : String :=
  if rep = "" then title
  else
    match loc.rep with
    | none => title
    | some rb =>
      match rb.labels with
      | none => title
      | some labels =>
        match lookupKey labels rep with
        | none => title
        | some lbl =>
          if lbl = "" then title
          else
            match due with
            | some ds => title ++ " (" ++ substitutedLabel tz rb lbl ds ++ ")"
            | none => title ++ " (" ++ lbl ++ ")"

/-- Embedding of the title decoration in `main` of `src/cli.js` (the
`add` branch): the repeat-label step followed by the due suffix step —
a parseable due string appends `" - " ++ formatDueForTitle`. -/
def buildAddTitle (tz : Int) (loc : LocaleBundle) (locale : String)
    (title : String) (due : Option DateStr) (rep : String) : String :=
  let t1 := decorateRepeat tz loc title due rep
  match due with
  | none => t1
  | some ds =>
    let dl := formatDueForTitle tz (some ds) locale
    if dl = "" then t1 else t1 ++ " - " ++ dl

/-! ## Response rendering on the add/list paths (cli.js) -/

/-- JavaScript `v || dflt` on an optional template string. -/
def jsOrStr (v : Option String) (dflt : String) : String :=
  match v with
  | some s => if s = "" then dflt else s
  | none => dflt

/-- Embedding of the confirmation-message construction in the `add`
branch of `main`: the due text comes from `added_with_due` /
`added_no_due`, the message from `added`, each with its hard-coded
default. -/
def addMessage (loc : LocaleBundle) (title : String) (due : Option String) : String :=
  let responses := loc.responses.getD []
  let dueText :=
    match due with
    | some d =>
      formatResponse (jsOrStr (lookupKey responses "added_with_due") " for \x7bdue\x7d")
        [("due", d)]
    | none => jsOrStr (lookupKey responses "added_no_due") " without a due date"
  formatResponse
    (jsOrStr (lookupKey responses "added") "Added \x27\x7btitle\x7d\x27 reminder\x7bdue_text\x7d.")
    [("title", title), ("due_text", dueText)]

/-- The JSON object the `list` branch of `main` prints:
`\x7blocale, labels: loc.responses || \x7b\x7d, items\x7d`.  Items are
the `(title, due)` rows of the bridge. -/
structure ListOutput where
  locale : String
  labels : List (String × String)
  items : List (String × Option String)
deriving DecidableEq, Repr

/-- Embedding of the `list` branch of `main` in `src/cli.js`. -/
def listOutput (table : List (String × LocaleBundle)) (locale : String)
    (items : List (String × Option String)) : ListOutput :=
  { locale := locale
    labels := (getLocale table locale).responses.getD []
    items := items }

/-! ## Edit and delete (eventkit-bridge.swift) -/

/-- A recurrence-end date string `YYYY-MM-DD`, carried structurally, or
other text the Swift regular expression rejects. -/
inductive DateOnlyStr where
  | ymd (y m d : Int)
  | bad (s : String)
deriving DecidableEq, Repr

/-- Embedding of `parseEndDate` in `eventkit-bridge.swift`: a matching
`YYYY-MM-DD` becomes local midnight of that civil date (via
`Calendar.current.date(from:)` in the fixed zone `tz`); anything else is
`nil`. -/
def parseEndDate (tz : Int) : DateOnlyStr → Option Int
  | .ymd y m d => some (86400 * daysFromCivil y m d - 60 * tz)
  | .bad _ => none

/-- Embedding of `parseFrequency` in `eventkit-bridge.swift`. -/
def parseFrequency (s : String) : Option Frequency :=
  if s.toLower = "daily" then some .daily
  else if s.toLower = "weekly" then some .weekly
  else if s.toLower = "monthly" then some .monthly
  else if s.toLower = "yearly" then some .yearly
  else none

/-- Swift `Int(string)` as used for `--interval`. -/
def swiftInt (s : String) : Option Int := s.toInt?

/-- The argument dictionary of the Swift `edit` command, restricted to
the keys `editReminder` reads.  A key bound to the empty string models
both a bare flag and an explicit empty value, exactly as Swift
`parseArgs` produces; the empty date string is `DateStr.bad ""`, which
fails the parse just as the `!isEmpty` guard skips it. -/
structure EditArgs where
  id : Option String
  title : Option String
  note : Option String
  due : Option DateStr
  rep : Option String
  interval : Option String
  repeatEnd : Option DateOnlyStr
deriving Repr

/-- Embedding of the field updates of `editReminder` in
`eventkit-bridge.swift`, applied to the fetched reminder: a nonempty
title overwrites; a present note sets the notes, the empty string
clearing them; a parseable due overwrites the due components and
replaces every alarm with one at the new due instant; a parseable
repeat replaces the recurrence rules.  Everything else is untouched. -/
def editApply (tz : Int) (a : EditArgs) (r : EKRem) : EKRem :=
  let r1 :=
    match a.title with
    | some t => if t = "" then r else { r with title := some t }
    | none => r
  let r2 :=
    match a.note with
    | some n => { r1 with notes := if n = "" then none else some n }
    | none => r1
  let r3 :=
    match a.due with
    | some ds =>
      match parseISO8601 ds with
      | some c => { r2 with due := some c, alarms := [swiftDateFrom tz c] }
      | none => r2
    | none => r2
  match a.rep with
  | some s =>
    if s = "" then r3
    else
      match parseFrequency s with
      | some fr =>
        { r3 with
          rules := some
            { frequency := fr
              interval := (swiftInt (a.interval.getD "1")).getD 1
              recEnd := a.repeatEnd.bind fun e => parseEndDate tz e } }
      | none => r3
  | none => r3

/-- Outcome of the Swift `delete` command: the error JSON
`\x7bok: false, error: msg\x7d`, or the success JSON
`\x7bok: true, id, title\x7d` together with the store after removal. -/
inductive DeleteResult where
  | err (msg : String)
  | ok (store : List EKRem) (id : String) (title : String)
deriving DecidableEq, Repr

/-- Embedding of `deleteReminder` in `eventkit-bridge.swift`: a missing
`--id` fails validation; an id that `calendarItemIdentifier` lookup does
not resolve yields the not-found error; otherwise the fetched reminder
is removed and the response carries its former title. -/
def deleteReminder (id : String) (store : List EKRem) : DeleteResult :=
  if id = "" then .err "--id is required"
  else
    match store.find? (fun r => r.id = id) with
    | none => .err "Reminder not found"
    | some r => .ok (store.eraseP (fun x => x.id = id)) id (r.title.getD "")

/-- Embedding of the catch clause of `main` in `src/cli.js`: one stderr
line made of the localized generic message (`error_access`, with its
hard-coded default) followed by the raw underlying detail. -/
def cliErrorLine (loc : LocaleBundle) (detail : String) : String :=
  jsOrStr (lookupKey (loc.responses.getD []) "error_access")
      "Error accessing Reminders app"
    ++ ": " ++ detail

/-! ## A concrete locale table

Modelled from the spec: `locales.json` itself is not under `src/`; the
spec fixes the supported key set `en | ko | ja | zh` (§6) and the
template/repeat-label structure (§4.3, and the accesses in `cli.js`).
The concrete template texts below are representative; the theorems that
depend on actual `locales.json` content quantify over arbitrary tables,
and this table only instantiates witnesses. -/

/-- Representative English bundle (defaults mirror the hard-coded
fallbacks in `cli.js`). -/
def enBundle : LocaleBundle :=
  { responses := some
      [ ("added", "Added \x27\x7btitle\x7d\x27 reminder\x7bdue_text\x7d.")
      , ("added_with_due", " for \x7bdue\x7d")
      , ("added_no_due", " without a due date")
      , ("error_access", "Error accessing Reminders app") ]
    rep := some
      { labels := some
          [ ("daily", "Daily")
          , ("weekly", "Every \x7bday\x7d")
          , ("monthly", "Monthly on day \x7bdate\x7d")
          , ("yearly", "Yearly") ]
        days := some
          ["Sunday", "Monday", "Tuesday", "Wednesday", "Thursday",
           "Friday", "Saturday"]
        months := none } }

/-- Representative Korean bundle. -/
def koBundle : LocaleBundle :=
  { responses := some
      [ ("added", "\x27\x7btitle\x7d\x27 reminder\x7bdue_text\x7d")
      , ("error_access", "Reminders app error (ko)") ]
    rep := some
      { labels := some [("weekly", "weekly-ko \x7bday\x7d")]
        days := some ["il", "wol", "hwa", "su", "mok", "geum", "to"]
        months := none } }

/-- The spec-modelled locale table. -/
def localesTable : List (String × LocaleBundle) :=
  [ ("en", enBundle)
  , ("ko", koBundle)
  , ("ja", { responses := some [("added", "added-ja \x7btitle\x7d")], rep := none })
  , ("zh", { responses := some [("added", "added-zh \x7btitle\x7d")], rep := none }) ]

/-! ## Theorems -/

/-- C1: every `add` whose repeat value is supplied (a nonempty string)
is dispatched by `add` in `apple-bridge.js` to the Swift EventKit
helper, and every `add` without a repeat value goes to the AppleScript
transport; the reverse never happens. -/
theorem c1_add_dispatch (s : String) (h : s ≠ "") :
    addTransport (some s) = Transport.swiftEventKit ∧
    addTransport none = Transport.appleScript := by
  constructor
  · simp [addTransport, jsTruthyStr, h]
  · rfl

/-- Witness for C1 at the repeat value "weekly". -/
theorem c1_add_dispatch_witness :
    addTransport (some "weekly") = Transport.swiftEventKit ∧
    addTransport none = Transport.appleScript :=
  c1_add_dispatch "weekly" (by decide)

/-- C2 counterexample: for the due string `2026-02-05T09:00:00+09:00`
with the process zone at UTC, `parseISO8601` of the Swift transport
stores hour 9 — the wall-clock digits written in the input — while the
local reading of the denoted instant has hour 0.  The claim that both
transports store the local-zone reading is therefore false on the Swift
path. -/
theorem c2_counterexample :
    parseISO8601 (DateStr.iso ⟨2026, 2, 5, 9, 0, 0, 540⟩) =
      some ⟨2026, 2, 5, 9, 0, 0⟩ ∧
    specLocalWallClock 0 ⟨2026, 2, 5, 9, 0, 0, 540⟩ = ⟨2026, 2, 5, 0, 0⟩ ∧
    parseISO 0 (some (DateStr.iso ⟨2026, 2, 5, 9, 0, 0, 540⟩)) =
      some ⟨2026, 2, 5, 0, 0⟩ ∧
    (⟨2026, 2, 5, 9, 0, 0⟩ : CivilTime) ≠ ⟨2026, 2, 5, 0, 0, 0⟩ := by
  refine ⟨rfl, by decide, by decide, by decide⟩

/-- C2 amended: for every well-formed ISO-8601 due string with an
explicit UTC offset, the AppleScript transport (`parseISO` in
`apple-bridge.js`) stores the wall-clock reading of the denoted instant
converted to the local zone of the process, as the spec demands; the Swift
transport (`parseISO8601` in `eventkit-bridge.swift`) instead stores the
wall-clock digits written in the input string, ignoring the offset
entirely. -/
theorem c2_amended (tz : Int) (v : ISODateTime) :
    parseISO tz (some (DateStr.iso v)) = some (specLocalWallClock tz v) ∧
    parseISO8601 (DateStr.iso v) = some v.components := by
  refine ⟨?_, rfl⟩
  simp only [parseISO, jsDateEpoch, specLocalWallClock, Option.some.injEq,
    ParsedDue.mk.injEq, true_and, and_true]
  omega

/-- C6 counterexample: a bridge subprocess that exits 0 but prints
non-JSON text is resolved by `runReminderBridge` in `cli.js` as the
success value `\x7bok: true, raw: text\x7d` — malformed transport output
is reported as success at this boundary, refuting the claim. -/
theorem c6_counterexample :
    runReminderBridge none "" (BridgeOut.notJson "not json at all") =
      Except.ok (BridgeResult.rawWrapped "not json at all") := rfl

/-- C6 amended: a transport call that fails to run is rejected at both
subprocess boundaries with the raw underlying detail (stderr when
nonempty, the error message otherwise) and surfaces as one localized
stderr line and a nonzero exit; non-JSON output is rejected as a
transport error at the apple-bridge→Swift boundary, but at the
cli→apple-bridge boundary it is wrapped as `\x7bok: true, raw\x7d` and
reported as success. -/
theorem c6_amended (m stderr raw detail : String) (out : BridgeOut)
    (e : Option String) (loc : LocaleBundle) :
    runReminderBridge (some m) "" out = Except.error m ∧
    (stderr ≠ "" → runReminderBridge (some m) stderr out = Except.error stderr) ∧
    runSwiftHelper true (some m) "" out = Except.error m ∧
    runSwiftHelper true none stderr (BridgeOut.notJson raw) =
      Except.error ("Swift returned invalid JSON: " ++ raw.take 200) ∧
    runSwiftHelper true none stderr (BridgeOut.json false e) =
      Except.error (e.getD "Swift helper failed") ∧
    runSwiftHelper false (some m) stderr out ≠ Except.ok (BridgeResult.rawWrapped raw) ∧
    runReminderBridge none stderr (BridgeOut.notJson raw) =
      Except.ok (BridgeResult.rawWrapped raw) ∧
    cliErrorLine loc detail =
      jsOrStr (lookupKey (loc.responses.getD []) "error_access")
          "Error accessing Reminders app" ++ ": " ++ detail := by
  refine ⟨rfl, ?_, rfl, rfl, rfl, ?_, rfl, rfl⟩
  · intro h
    simp [runReminderBridge, h]
  · simp [runSwiftHelper]

/-- Witness for C6 amended at concrete inputs. -/
theorem c6_amended_witness :
    runReminderBridge (some "boom") "stderr detail" (BridgeOut.notJson "x") =
      Except.error "stderr detail" :=
  (c6_amended "boom" "stderr detail" "x" "d" (BridgeOut.notJson "x") none
      emptyBundle).2.1 (by decide)

/-- C7: an `add` invocation whose `--title` flag is absent, or whose
title value is the empty string, makes `main` in `cli.js` print the
validation error and exit 1 before any bridge subprocess is spawned:
the chosen action is `addValidationError`, not a `listCall`/`addCall`
bridge invocation. -/
theorem c7_add_validation (argv : List String)
    (hcmd : (parseArgs argv).2.head? = some "add")
    (htitle : argVal (parseArgs argv).1 "title" = none ∨
      argVal (parseArgs argv).1 "title" = some (ArgVal.str "")) :
    cliMain argv = MainAction.addValidationError := by
  rcases htitle with h | h <;>
    simp [cliMain, hcmd, h, jsTruthyArg]

/-- Witness for C7: `add --title ""` (explicit empty title). -/
theorem c7_add_validation_witness :
    cliMain ["add", "--title", ""] = MainAction.addValidationError :=
  c7_add_validation ["add", "--title", ""] (by decide) (Or.inr (by decide))

/-- C3 counterexample: `list --locale xx` and `list --locale en` do not
produce byte-for-byte identical output — the emitted JSON object echoes
the requested locale code, so the two objects differ in the `locale`
field even though all rendered labels are the `en` ones. -/
theorem c3_counterexample :
    listOutput localesTable "xx" [] ≠ listOutput localesTable "en" [] := by
  decide

/-- C3 amended: an unsupported locale code resolves to the `en` bundle,
so every locale-derived datum of the run — the labels, the add
confirmation message, the date format used in titles — equals the
`--locale en` run; the emitted JSON however echoes the requested code
and therefore differs from the `en` run in exactly the `locale` field. -/
theorem c3_amended (table : List (String × LocaleBundle)) (code : String)
    (hcode : lookupKey table code = none) (hko : code ≠ "ko")
    (items : List (String × Option String)) (title : String)
    (due : Option String) (tz : Int) (ds : Option DateStr) :
    getLocale table code = getLocale table "en" ∧
    (listOutput table code items).labels = (listOutput table "en" items).labels ∧
    (listOutput table code items).items = (listOutput table "en" items).items ∧
    (listOutput table code items).locale = code ∧
    (listOutput table "en" items).locale = "en" ∧
    addMessage (getLocale table code) title due =
      addMessage (getLocale table "en") title due ∧
    formatDueForTitle tz ds code = formatDueForTitle tz ds "en" := by
  have hloc : getLocale table code = getLocale table "en" := by
    unfold getLocale
    rw [hcode]
    cases h : lookupKey table "en" <;> simp [h]
  refine ⟨hloc, ?_, rfl, rfl, rfl, by rw [hloc], ?_⟩
  · simp [listOutput, hloc]
  · unfold formatDueForTitle
    cases ds with
    | none => rfl
    | some d =>
      cases h : jsDateEpoch d <;> simp [h, hko]

/-- Witness for C3 amended: the unsupported code `xx` against the
spec-modelled table resolves to the `en` bundle. -/
theorem c3_amended_witness :
    getLocale localesTable "xx" = getLocale localesTable "en" :=
  (c3_amended localesTable "xx" (by decide) (by decide) [] "t" none 0 none).1

/-- C4 counterexample: an incomplete reminder due one hour from now is
returned by `list --scope all` but not by a list with the unknown scope
`bogus` on the AppleScript backend — the fallback filtering is not
`all`-like there, because the window degenerates to `[now, now]`. -/
theorem c4_counterexample :
    (⟨"x", some 1003600, false⟩ : ASReminder) ∈
      appleScriptList "all" 0 1000000 [⟨"x", some 1003600, false⟩] ∧
    (⟨"x", some 1003600, false⟩ : ASReminder) ∉
      appleScriptList "bogus" 0 1000000 [⟨"x", some 1003600, false⟩] := by
  decide

/-- C4 amended: a list with a scope outside today/week/all does not
fail; `listReminders` of the Swift backend indeed applies its default
branch and behaves exactly like scope `all`, but the AppleScript backend
(the one `cli.js list` actually reaches) leaves both window bounds at
`now`, returning only incomplete items due exactly at the invocation
instant. -/
theorem c4_amended (scope : String) (h1 : scope ≠ "today")
    (h2 : scope ≠ "week") (h3 : scope ≠ "all") (tz now : Int)
    (rs : List ASReminder) (eks : List EKRem) :
    listReminders scope tz now eks = listReminders "all" tz now eks ∧
    (∀ r : ASReminder, r ∈ appleScriptList scope tz now rs ↔
      r ∈ rs ∧ r.completed = false ∧ r.due = some now) := by
  constructor
  · simp [listReminders, h1, h2]
  · intro r
    simp only [appleScriptList, appleScriptWindow, if_neg h1, if_neg h2,
      List.mem_filter]
    cases hd : r.due with
    | none => simp [h3]
    | some d =>
      simp [h3, hd]
      intro _ _
      omega

/-- Witness for C4 amended at the concrete unknown scope `bogus`. -/
theorem c4_amended_witness :
    listReminders "bogus" 0 0
        [⟨"a", some "T", none, some ⟨2026, 1, 1, 0, 0, 0⟩, [], none, false, none⟩] =
      listReminders "all" 0 0
        [⟨"a", some "T", none, some ⟨2026, 1, 1, 0, 0, 0⟩, [], none, false, none⟩] :=
  (c4_amended "bogus" (by decide) (by decide) (by decide) 0 0 []
    [⟨"a", some "T", none, some ⟨2026, 1, 1, 0, 0, 0⟩, [], none, false, none⟩]).1

/-- In a store whose ids are pairwise distinct, removing the reminder
with a given id leaves no reminder carrying that id. -/
lemma eraseP_id_not_mem (id : String) :
    ∀ store : List EKRem, (store.map (fun r => r.id)).Nodup →
      ∀ x ∈ store.eraseP (fun y => y.id = id), x.id ≠ id := by
  intro store
  induction store with
  | nil => intro _ x hx; simp [List.eraseP] at hx
  | cons a t ih =>
    intro hnd x hx
    rw [List.map_cons, List.nodup_cons] at hnd
    by_cases h : a.id = id
    · rw [List.eraseP_cons_of_pos (by simpa using h)] at hx
      intro hxid
      exact hnd.1 (h ▸ hxid ▸ List.mem_map_of_mem (fun r => r.id) hx)
    · rw [List.eraseP_cons_of_neg (by simpa using h)] at hx
      rcases List.mem_cons.mp hx with rfl | hx
      · exact h
      · exact ih hnd.2 x hx

/-- C5: for a delete with a supplied `--id`, `deleteReminder` in
`eventkit-bridge.swift` answers the not-found error JSON when no
reminder has that id, and otherwise removes the fetched reminder from
the store (no reminder with the id remains, ids being unique) and
answers the success JSON carrying the former title of the removed item for
the confirmation message. -/
theorem c5_delete (id : String) (store : List EKRem) (hid : id ≠ "") :
    (store.find? (fun r => r.id = id) = none →
      deleteReminder id store = DeleteResult.err "Reminder not found") ∧
    (∀ r, store.find? (fun r => r.id = id) = some r →
      deleteReminder id store =
        DeleteResult.ok (store.eraseP (fun x => x.id = id)) id (r.title.getD "") ∧
      ((store.map (fun x => x.id)).Nodup →
        ∀ x ∈ store.eraseP (fun y => y.id = id), x.id ≠ id)) := by
  constructor
  · intro h
    simp [deleteReminder, hid, h]
  · intro r hr
    exact ⟨by simp [deleteReminder, hid, hr], eraseP_id_not_mem id store⟩

/-- Witness for C5: deleting the only item of a one-element store
succeeds and reports its former title. -/
theorem c5_delete_witness :
    deleteReminder "A" [⟨"A", some "Milk", none, none, [], none, false, none⟩] =
      DeleteResult.ok [] "A" "Milk" :=
  ((c5_delete "A" [⟨"A", some "Milk", none, none, [], none, false, none⟩]
      (by decide)).2
    ⟨"A", some "Milk", none, none, [], none, false, none⟩ (by decide)).1

/-- C8: on both backends, `list --scope week` returns exactly the
incomplete stored items whose due instant lies in the closed interval
`[now - 1 day, now + 7 days]`; in particular an item due exactly at
`now - 1 day` satisfies the bound and one due a second earlier does
not. -/
theorem c8_week_window (tz now : Int) (rs : List ASReminder) (eks : List EKRem) :
    (∀ r : ASReminder, r ∈ appleScriptList "week" tz now rs ↔
      r ∈ rs ∧ r.completed = false ∧
        ∃ d, r.due = some d ∧ now - 86400 ≤ d ∧ d ≤ now + 7 * 86400) ∧
    (∀ r : EKRem, r ∈ listReminders "week" tz now eks ↔
      r ∈ eks ∧ r.completed = false ∧
        ∃ c, r.due = some c ∧ now - 86400 ≤ swiftDateFrom tz c ∧
          swiftDateFrom tz c ≤ now + 7 * 86400) := by
  constructor
  · intro r
    simp only [appleScriptList, appleScriptWindow, List.mem_filter]
    cases hd : r.due <;> simp [hd]
  · intro r
    simp only [listReminders, List.mem_filter]
    norm_num
    cases hd : r.due with
    | none => simp [hd]
    | some c =>
      simp [hd]
      tauto

/-- C9: `editReminder` overwrites only the fields whose flags are
supplied: the id, the completion state and the completion date are
identical before and after every edit; an omitted `--title`, `--note`,
`--due` or `--repeat` leaves the corresponding stored field (and, for
due, the alarms) unchanged; and a supplied `--note` with the explicit
empty string clears the stored note. -/
theorem c9_edit_frame (tz : Int) (a : EditArgs) (r : EKRem) :
    (editApply tz a r).id = r.id ∧
    (editApply tz a r).completed = r.completed ∧
    (editApply tz a r).completionDate = r.completionDate ∧
    (a.title = none → (editApply tz a r).title = r.title) ∧
    (a.note = none → (editApply tz a r).notes = r.notes) ∧
    (a.note = some "" → (editApply tz a r).notes = none) ∧
    (a.due = none →
      (editApply tz a r).due = r.due ∧ (editApply tz a r).alarms = r.alarms) ∧
    (a.rep = none → (editApply tz a r).rules = r.rules) := by
  obtain ⟨aid, atitle, anote, adue, arep, ai, are⟩ := a
  unfold editApply
  refine ⟨?_, ?_, ?_, ?_, ?_, ?_, ?_, ?_⟩ <;>
    · simp only
      repeat' split
      all_goals simp_all

/-- Witness for C9: an edit supplying only an empty `--note` clears the
note and leaves id, completion and title untouched. -/
theorem c9_edit_frame_witness :
    (editApply 0 ⟨none, none, some "", none, none, none, none⟩
        ⟨"A", some "Milk", some "old note", none, [], none, false, none⟩).notes =
      none ∧
    (editApply 0 ⟨none, none, some "", none, none, none, none⟩
        ⟨"A", some "Milk", some "old note", none, [], none, false, none⟩).id =
      "A" ∧
    (editApply 0 ⟨none, none, some "", none, none, none, none⟩
        ⟨"A", some "Milk", some "old note", none, [], none, false, none⟩).title =
      some "Milk" := by
  have h := c9_edit_frame 0 ⟨none, none, some "", none, none, none, none⟩
    ⟨"A", some "Milk", some "old note", none, [], none, false, none⟩
  exact ⟨h.2.2.2.2.2.1 rfl, h.1, h.2.2.2.1 rfl⟩

/-- When the guard chain yields no label, the repeat step leaves the
title alone. -/
lemma decorateRepeat_of_none (tz : Int) (loc : LocaleBundle)
    (title : String) (due : Option DateStr) (rep : String)
    (h : repeatLabelOf loc rep = none) :
    decorateRepeat tz loc title due rep = title := by
  obtain ⟨resp, lrep⟩ := loc
  unfold repeatLabelOf at h
  unfold decorateRepeat
  by_cases h1 : rep = ""
  · simp [h1]
  · rw [if_neg h1] at h ⊢
    cases lrep with
    | none => simp
    | some rb =>
      obtain ⟨lbls, days, months⟩ := rb
      cases lbls with
      | none => simp
      | some labels =>
        cases hk : lookupKey labels rep with
        | none => simp [hk]
        | some lbl =>
          by_cases h2 : lbl = ""
          · simp [hk, h2]
          · simp [hk, h2] at h

/-- When the guard chain yields a label, the repeat step appends it in
parentheses, substituted from the due date when one is present. -/
lemma decorateRepeat_of_some (tz : Int) (loc : LocaleBundle)
    (title : String) (rep lbl : String)
    (h : repeatLabelOf loc rep = some lbl) :
    decorateRepeat tz loc title none rep = title ++ " (" ++ lbl ++ ")" ∧
    (∀ rb, loc.rep = some rb → ∀ ds,
      decorateRepeat tz loc title (some ds) rep =
        title ++ " (" ++ substitutedLabel tz rb lbl ds ++ ")") := by
  obtain ⟨resp, lrep⟩ := loc
  unfold repeatLabelOf at h
  by_cases h1 : rep = ""
  · simp [h1] at h
  · rw [if_neg h1] at h
    cases lrep with
    | none => simp at h
    | some rb0 =>
      obtain ⟨lbls, days, months⟩ := rb0
      cases lbls with
      | none => simp at h
      | some labels =>
        cases hk : lookupKey labels rep with
        | none => simp [hk] at h
        | some l0 =>
          by_cases h2 : l0 = ""
          · simp [hk, h2] at h
          · simp [hk, h2] at h
            subst h
            constructor
            · simp [decorateRepeat, h1, hk, h2]
            · intro rb hrb ds
              obtain rfl : rb = ⟨some labels, days, months⟩ := by
                injection hrb with hrb'
                exact hrb'.symm
              simp [decorateRepeat, h1, hk, h2]

/-- A formatted due string is never empty (it always contains its
separators). -/
lemma formatDueForTitle_iso_ne (tz : Int) (v : ISODateTime)
    (locale : String) :
    formatDueForTitle tz (some (DateStr.iso v)) locale ≠ "" := by
  have hdot : ("." : String).length = 1 := rfl
  have hdash : ("-" : String).length = 1 := rfl
  have hsp : (" " : String).length = 1 := rfl
  have hcol : (":" : String).length = 1 := rfl
  have hemp : ("" : String).length = 0 := rfl
  intro h
  have h2 : formatDueForTitle tz (some (DateStr.iso v)) locale =
      (if locale = "ko" then
        toString (civilOfEpoch tz v.epoch).year ++ "." ++
          pad2 (civilOfEpoch tz v.epoch).month ++ "." ++
          pad2 (civilOfEpoch tz v.epoch).day ++ " " ++
          pad2 (civilOfEpoch tz v.epoch).hour ++ ":" ++
          pad2 (civilOfEpoch tz v.epoch).minute
      else
        toString (civilOfEpoch tz v.epoch).year ++ "-" ++
          pad2 (civilOfEpoch tz v.epoch).month ++ "-" ++
          pad2 (civilOfEpoch tz v.epoch).day ++ " " ++
          pad2 (civilOfEpoch tz v.epoch).hour ++ ":" ++
          pad2 (civilOfEpoch tz v.epoch).minute) := rfl
  rw [h2] at h
  split at h <;>
  · have hl := congrArg String.length h
    simp only [String.length_append, hdot, hdash, hsp, hcol, hemp] at hl
    omega

/-- C10 counterexample: an add with a nonempty but unparseable `--due`
("tomorrow") and no repeat passes the title supplied by the user to the adapter
verbatim, refuting the claim that only an add with neither due nor
repeat stores the title unchanged. -/
theorem c10_counterexample :
    buildAddTitle 0 enBundle "en" "T" (some (DateStr.bad "tomorrow")) "" = "T" := by
  decide

/-- C10 amended: the title passed to the adapter is the title supplied by the user
with, when the repeat has a (nonempty) label in the locale bundle, that
label appended in parentheses (day/date/month substituted from the due
date when one is present), and, when the due string parses, a
`" - YYYY.MM.DD HH:MM"` (locale ko) or `" - YYYY-MM-DD HH:MM"` (any
other locale) suffix appended; an add whose repeat yields no label and
whose due is absent or unparseable stores the title unchanged — so a
given-but-unparseable due does not alter the title. -/
theorem c10_amended (tz : Int) (loc : LocaleBundle) (locale : String)
    (title : String) (v : ISODateTime) (rep : String) (s : String) :
    (repeatLabelOf loc rep = none →
      buildAddTitle tz loc locale title none rep = title ∧
      buildAddTitle tz loc locale title (some (DateStr.bad s)) rep = title ∧
      buildAddTitle tz loc locale title (some (DateStr.iso v)) rep =
        title ++ " - " ++ formatDueForTitle tz (some (DateStr.iso v)) locale) ∧
    (∀ lbl, repeatLabelOf loc rep = some lbl →
      buildAddTitle tz loc locale title none rep =
        title ++ " (" ++ lbl ++ ")" ∧
      (∀ rb, loc.rep = some rb →
        buildAddTitle tz loc locale title (some (DateStr.iso v)) rep =
          title ++ " (" ++ substitutedLabel tz rb lbl (DateStr.iso v) ++ ")" ++
            " - " ++ formatDueForTitle tz (some (DateStr.iso v)) locale)) ∧
    (locale ≠ "ko" →
      formatDueForTitle tz (some (DateStr.iso v)) locale =
        formatDueForTitle tz (some (DateStr.iso v)) "en") := by
  refine ⟨?_, ?_, ?_⟩
  · intro h
    refine ⟨?_, ?_, ?_⟩
    · simp [buildAddTitle, decorateRepeat_of_none tz loc title none rep h]
    · simp [buildAddTitle,
        decorateRepeat_of_none tz loc title (some (DateStr.bad s)) rep h,
        formatDueForTitle, jsDateEpoch]
    · rw [buildAddTitle,
        decorateRepeat_of_none tz loc title (some (DateStr.iso v)) rep h]
      simp [formatDueForTitle_iso_ne tz v locale]
  · intro lbl h
    constructor
    · simp [buildAddTitle, (decorateRepeat_of_some tz loc title rep lbl h).1]
    · intro rb hrb
      rw [buildAddTitle,
        (decorateRepeat_of_some tz loc title rep lbl h).2 rb hrb (DateStr.iso v)]
      simp [formatDueForTitle_iso_ne tz v locale]
  · intro hko
    unfold formatDueForTitle
    simp [jsDateEpoch, hko]

/-- Witness for C10 amended: against the spec-modelled `en` bundle, the
repeat `weekly` with no due date appends the raw weekly label in
parentheses. -/
theorem c10_amended_witness :
    buildAddTitle 0 enBundle "en" "Standup" none "weekly" =
      "Standup" ++ " (" ++ "Every \x7bday\x7d" ++ ")" :=
  ((c10_amended 0 enBundle "en" "Standup" ⟨2026, 2, 5, 9, 0, 0, 540⟩
      "weekly" "x").2.1 "Every \x7bday\x7d" (by decide)).1

end MacReminders
